import Mathlib

/-!
Verification of the metering and host-call-bridge core of the wasmer
repository against its specification.

Embedded directly from the source:
  * `cost_function` — the cost closure of `examples/metering.rs` (lines 48-54).
  * `env_var` / `get_env` — `src/apis/host/posix/env.rs` (lines 19-22), where
    `get_env` receives the variable name already as a host string, ignores the
    instance argument, and delegates to `std::env::var`.

Modelled from the spec (the metering middleware, the memory address validator
and the `open`/`read`/`close` bridge operations are code of this repository
that is not under the source directory; only the example that exercises the
metering middleware is):
  * the points ledger and trap policy (spec section 4.3),
  * block-granular instrumented calls (spec sections 4.2 and 4.3),
  * the memory address validator (spec section 4.4),
  * the `open`/`read`/`close` bridge operations (spec section 4.5).
-/

/-- Operators of the guest bytecode, a closed variant set standing for the
operator enumeration matched by the example's cost closure: the three
operators the example module uses (`local.get`, `i32.const`, `i32.add`),
plus further operators that fall under the closure's `_ => 0` default arm
(`i32.store` giving a persistent memory effect, `nop` and `drop` as inert
representatives). -/
inductive Operator where
  | localGet (localIndex : Nat)
  | i32Const (value : Nat)
  | i32Add
  | i32Store
  | nop
  | dropOp
deriving DecidableEq, Repr

/-- Embedding of the cost closure of `examples/metering.rs`: `LocalGet` and
`I32Const` cost 1, `I32Add` costs 2, every other operator costs 0. The Rust
closure returns `u64`, so the cost is a natural number. -/
def cost_function : Operator → Nat
  | .localGet _ | .i32Const _ => 1
  | .i32Add => 2
  | _ => 0

/-- Distinguishable failure surfaced by the trap policy on budget
exhaustion (spec section 4.3). -/
inductive MeterTrap where
  | exhausted
deriving DecidableEq, Repr

/-- State of one running instance: the signed points ledger, the faulted
flag set by the trap policy and cleared by `set_remaining_points`, and the
instance's linear memory (spec sections 3 and 4.3). -/
structure Instance where
  points : Int
  faulted : Bool
  memory : List Nat
deriving DecidableEq, Repr

/-- Static cost of a straight-line block: the sum of the costs of its
operators, as computed by the instrumentation pass (spec section 4.2). -/
def blockCost (body : List Operator) : Nat :=
  (body.map cost_function).sum

/-- Transient execution state of one call: the call's locals, the operand
stack and the instance's linear memory. -/
structure ExecState where
  locals : List Nat
  stack : List Nat
  memory : List Nat
deriving DecidableEq, Repr

/-- Modelled from the spec: one step of the execution engine, an excluded
collaborator (spec section 1 declares the engine out of scope; values are
32-bit, so arithmetic wraps modulo `2 ^ 32`). Bytecode validation, also an
excluded collaborator, rules out stack underflow, so the underflow arms are
inert. -/
def execOp (s : ExecState) : Operator → ExecState
  | .localGet i => { s with stack := s.locals.getD i 0 :: s.stack }
  | .i32Const v => { s with stack := v % 2 ^ 32 :: s.stack }
  | .i32Add =>
    match s.stack with
    | b :: a :: rest => { s with stack := (a + b) % 2 ^ 32 :: rest }
    | _ => s
  | .i32Store =>
    match s.stack with
    | v :: addr :: rest => { s with stack := rest, memory := s.memory.set addr v }
    | _ => s
  | .nop => s
  | .dropOp =>
    match s.stack with
    | _ :: rest => { s with stack := rest }
    | _ => s

/-- Modelled from the spec: an instrumented exported-function call on a
single straight-line block (spec sections 4.2 and 4.3). The injected
deduction and check run at block entry, before any of the block's effects:
a faulted instance does not execute; if the deduction would drive the
ledger negative the trap policy fires, leaving the ledger at its pre-fault
value and marking the instance faulted; otherwise the block cost is
deducted and the body executes, its result being the top of the final
stack. -/
def callExport (body : List Operator) (arg : Nat) (inst : Instance) :
    Except MeterTrap Nat × Instance :=
  if inst.faulted then
    (Except.error MeterTrap.exhausted, inst)
  else if inst.points - (blockCost body : Int) < 0 then
    (Except.error MeterTrap.exhausted, { inst with faulted := true })
  else
    let fin := body.foldl execOp { locals := [arg % 2 ^ 32], stack := [], memory := inst.memory }
    (Except.ok (fin.stack.headD 0),
      { inst with points := inst.points - (blockCost body : Int), memory := fin.memory })

/-- Modelled from the spec: `get_remaining_points` reads the current ledger
value and has no side effect (spec sections 4.3 and 6); it is embedded as a
state-passing operation so that the absence of a side effect is a provable
statement. -/
def get_remaining_points (inst : Instance) : Int × Instance :=
  (inst.points, inst)

/-- Modelled from the spec: `set_remaining_points` overwrites the ledger
with the given value (any sign) and clears the faulted state (spec sections
4.3 and 6). -/
def set_remaining_points (inst : Instance) (value : Int) : Instance :=
  { inst with points := value, faulted := false }

/-- The body of the example's exported `add_one` function:
`local.get $value`, `i32.const 1`, `i32.add`
(`examples/metering.rs` lines 33-39). -/
def addOneBody : List Operator :=
  [Operator.localGet 0, Operator.i32Const 1, Operator.i32Add]

/-- Runs a sequence of exported-function calls (body and argument pairs),
threading the instance state and collecting each call's result. -/
def runCalls (calls : List (List Operator × Nat)) (inst : Instance) :
    List (Except MeterTrap Nat) × Instance :=
  match calls with
  | [] => ([], inst)
  | c :: rest =>
    let r := callExport c.1 c.2 inst
    let rs := runCalls rest r.2
    (r.1 :: rs.1, rs.2)

/-- The operators of exactly those calls whose block fully executed, read
off a call sequence and its per-call results: the bodies of the calls that
returned a value, in order. -/
def executedOps : List (List Operator × Nat) → List (Except MeterTrap Nat) → List Operator
  | [], _ => []
  | _, [] => []
  | c :: rest, r :: rs =>
    match r with
    | .ok _ => c.1 ++ executedOps rest rs
    | .error _ => executedOps rest rs

/-- Failure of the memory address validator (spec section 4.4). -/
inductive MemError where
  | outOfBounds
deriving DecidableEq, Repr

/-- Modelled from the spec: the memory address validator (spec section 4.4),
code of this repository not under the source directory. Given the host base
address and current size of the instance's linear memory and a
guest-supplied 32-bit offset and length, it fails with `OutOfBounds` when
the addition `offset + length` would overflow the 32-bit address space or
when the sum exceeds the current linear memory size; otherwise it returns
the host pointer to the start of the range. It performs no read or write of
the range itself. -/
def validate (memBase memSize : Nat) (offset length : Nat) : Except MemError Nat :=
  if 2 ^ 32 ≤ offset + length then Except.error MemError.outOfBounds
  else if memSize < offset + length then Except.error MemError.outOfBounds
  else Except.ok (memBase + offset)

/-- Host-side effects a bridge operation may perform, recorded as a trace so
that "validation runs strictly before the host effect" is a provable
statement. -/
inductive HostEffect where
  | effOpen (pathOff pathLen : Nat) (flags : Int)
  | effRead (fd : Int) (len : Nat)
  | effClose (fd : Int)
deriving DecidableEq, Repr

/-- Behaviour of the host operating system, abstracted as the results its
syscalls return: a descriptor (or negative error) for `open`, the bytes a
`read` yields, and a status for `close`. -/
structure Host where
  openRes : Nat → Nat → Int → Int
  readRes : Int → Nat → List Nat
  closeRes : Int → Int

/-- Modelled from the spec: the `open` bridge operation (spec section 4.5),
code of this repository not under the source directory. It validates the
guest-supplied path range first; on validation failure it returns the
guest-observable error value `-1` with no host effect and no instance
change, otherwise it performs the host open and returns its descriptor or
negative error code. -/
def bridge_open (h : Host) (inst : Instance) (pathOff pathLen : Nat) (flags : Int) :
    Int × List HostEffect × Instance :=
  match validate 0 inst.memory.length pathOff pathLen with
  | .error _ => (-1, [], inst)
  | .ok _ => (h.openRes pathOff pathLen flags, [HostEffect.effOpen pathOff pathLen flags], inst)

/-- Writes a byte sequence into linear memory starting at the given offset;
positions beyond the end of memory are left untouched. -/
def writeBytes (mem : List Nat) (off : Nat) : List Nat → List Nat
  | [] => mem
  | b :: bs => writeBytes (mem.set off b) (off + 1) bs

/-- Modelled from the spec: the `read` bridge operation (spec section 4.5),
code of this repository not under the source directory. It validates the
guest-supplied destination buffer range before issuing the host read; on
validation failure it returns the guest-observable error value `-1` with no
host effect and no instance change, otherwise it reads at most `bufLen`
bytes from the host and writes them into the validated range, returning the
byte count. -/
def bridge_read (h : Host) (inst : Instance) (fd : Int) (bufOff bufLen : Nat) :
    Int × List HostEffect × Instance :=
  match validate 0 inst.memory.length bufOff bufLen with
  | .error _ => (-1, [], inst)
  | .ok _ =>
    let bytes := (h.readRes fd bufLen).take bufLen
    ((bytes.length : Int), [HostEffect.effRead fd bufLen],
      { inst with memory := writeBytes inst.memory bufOff bytes })

/-- Modelled from the spec: the `close` bridge operation (spec section 4.5),
code of this repository not under the source directory. It takes no
guest-supplied offset or length, releases the host resource and returns the
host status. -/
def bridge_close (h : Host) (inst : Instance) (fd : Int) : Int × List HostEffect × Instance :=
  (h.closeRes fd, [HostEffect.effClose fd], inst)

/-- Failure values of `std::env::var`, as in `src/apis/host/posix/env.rs`. -/
inductive VarError where
  | notPresent
  | notUnicode
deriving DecidableEq, Repr

/-- Embedding of `std::env::var`: the host process environment is passed
explicitly as an association list of Unicode variables; a missing name
yields `Err(VarError::NotPresent)`, distinct from `Ok` of the empty
string. -/
def env_var (hostEnv : List (String × String)) (name : String) : Except VarError String :=
  match hostEnv.lookup name with
  | some v => Except.ok v
  | none => Except.error VarError.notPresent

/-- Embedding of `get_env` from `src/apis/host/posix/env.rs` (lines 19-22):
it receives the variable name already as a host string together with the
instance, and its body is exactly `env::var(name)`; the instance is
threaded through unchanged. It takes no guest offset or length and performs
no validation against the instance's linear memory. -/
def get_env (hostEnv : List (String × String)) (name : String) (inst : Instance) :
    Except VarError String × Instance :=
  (env_var hostEnv name, inst)

/-- Helper for conservation: the call's effect on the ledger, read off its
result — a successful call deducts exactly its block cost, a trapped call
leaves the ledger unchanged. -/
lemma callExport_points_eq (body : List Operator) (arg : Nat) (inst : Instance) :
    ((callExport body arg inst).2).points =
      match (callExport body arg inst).1 with
      | .ok _ => inst.points - (blockCost body : Int)
      | .error _ => inst.points := by
  unfold callExport
  split_ifs with hf hc
  · rfl
  · rfl
  · rfl

/-- C1: with the example's cost model (1 for `local.get`, 1 for `i32.const`,
2 for `i32.add`, 0 otherwise) and an initial budget of 10, each call of the
body `[local.get, i32.const, i32.add]` costs 4: `get_remaining_points`
returns 6 after the first call and 2 after the second, and the third call
traps with the distinguishable exhaustion failure instead of returning a
result, leaving 2 points. -/
theorem metering_worked_example :
    blockCost addOneBody = 4 ∧
    (callExport addOneBody 1 ⟨10, false, []⟩).1 = Except.ok 2 ∧
    (get_remaining_points (callExport addOneBody 1 ⟨10, false, []⟩).2).1 = 6 ∧
    (get_remaining_points
      (callExport addOneBody 1 (callExport addOneBody 1 ⟨10, false, []⟩).2).2).1 = 2 ∧
    (callExport addOneBody 1
      (callExport addOneBody 1 (callExport addOneBody 1 ⟨10, false, []⟩).2).2).1 =
      Except.error MeterTrap.exhausted ∧
    (get_remaining_points (callExport addOneBody 1
      (callExport addOneBody 1 (callExport addOneBody 1 ⟨10, false, []⟩).2).2).2).1 = 2 :=
  ⟨rfl, rfl, rfl, rfl, rfl, rfl⟩

/-- C2: a call that traps on budget exhaustion leaves the ledger unchanged —
reading it afterwards yields exactly the value it held before the failing
block's deduction — and produces none of the block's effects: no result is
returned and the linear memory is untouched; only the faulted flag is set. -/
theorem trap_preserves_ledger (body : List Operator) (arg : Nat) (inst : Instance)
    (hf : inst.faulted = false) (hc : inst.points - (blockCost body : Int) < 0) :
    callExport body arg inst = (Except.error MeterTrap.exhausted, { inst with faulted := true }) ∧
    (get_remaining_points ((callExport body arg inst).2)).1 = inst.points ∧
    ((callExport body arg inst).2).memory = inst.memory := by
  unfold callExport
  rw [hf]
  simp [hc, get_remaining_points]

/-- Witness for C2 at the worked example's trapping third call: 2 points
remaining, block cost 4. -/
theorem trap_preserves_ledger_witness :
    callExport addOneBody 1 ⟨2, false, []⟩ = (Except.error MeterTrap.exhausted, ⟨2, true, []⟩) ∧
    (get_remaining_points ((callExport addOneBody 1 ⟨2, false, []⟩).2)).1 = 2 ∧
    ((callExport addOneBody 1 ⟨2, false, []⟩).2).memory = [] :=
  trap_preserves_ledger addOneBody 1 ⟨2, false, []⟩ rfl (by decide)

/-- C3: for every integer `v` (negative values included) and every instance,
faulted or not, `set_remaining_points` followed by `get_remaining_points`
returns exactly `v` and the faulted state is cleared — both unconditionally —
so the instance can execute again: any call whose block cost fits in `v`
returns a result. -/
theorem set_remaining_points_reset (v : Int) (inst : Instance)
    (body : List Operator) (arg : Nat) :
    (get_remaining_points (set_remaining_points inst v)).1 = v ∧
    (set_remaining_points inst v).faulted = false ∧
    (0 ≤ v - (blockCost body : Int) →
      (callExport body arg (set_remaining_points inst v)).1 =
        Except.ok ((body.foldl execOp ⟨[arg % 2 ^ 32], [], inst.memory⟩).stack.headD 0)) := by
  refine ⟨rfl, rfl, ?_⟩
  intro h
  unfold callExport set_remaining_points
  have hlt : ¬ v - (blockCost body : Int) < 0 := not_lt.mpr h
  simp [hlt]

/-- Witness for C3: setting a faulted instance to the negative value `-5`
makes `get_remaining_points` return exactly `-5` with the faulted state
cleared, and at the example's recharge to 10 the `add_one` call succeeds
again. -/
theorem set_remaining_points_reset_witness :
    (get_remaining_points (set_remaining_points ⟨2, true, []⟩ (-5))).1 = -5 ∧
    (set_remaining_points (⟨2, true, []⟩ : Instance) (-5)).faulted = false ∧
    (callExport addOneBody 1 (set_remaining_points ⟨2, true, []⟩ 10)).1 = Except.ok 2 :=
  ⟨(set_remaining_points_reset (-5) ⟨2, true, []⟩ addOneBody 1).1,
   (set_remaining_points_reset (-5) ⟨2, true, []⟩ addOneBody 1).2.1,
   (set_remaining_points_reset 10 ⟨2, true, []⟩ addOneBody 1).2.2 (by decide)⟩

/-- C4: conservation of points — over any sequence of exported-function
calls, the final ledger value equals the initial one minus the sum of
`cost_function` over exactly the operators of the calls whose block fully
executed; trapped calls contribute nothing. -/
theorem conservation (calls : List (List Operator × Nat)) (inst : Instance) :
    ((runCalls calls inst).2).points =
      inst.points -
        (((executedOps calls (runCalls calls inst).1).map cost_function).sum : Int) := by
  induction calls generalizing inst with
  | nil => simp [runCalls, executedOps]
  | cons c rest ih =>
    simp only [runCalls]
    have hp := callExport_points_eq c.1 c.2 inst
    cases hr : (callExport c.1 c.2 inst).1 with
    | error e =>
      rw [hr] at hp
      simp only [executedOps, hr]
      rw [ih, hp]
    | ok val =>
      rw [hr] at hp
      simp only [executedOps, hr, List.map_append, List.sum_append]
      rw [ih, hp]
      simp only [blockCost]
      push_cast
      ring

/-- Counterexample to C5: `get_env` performs no validation of any name range
against the instance's linear memory — it does not even receive an offset or
length, only the decoded name — so its result is identical on an instance
whose memory is empty (where every non-trivial range would be out of
bounds) and on one with populated memory, and the lookup still succeeds on
the empty-memory instance. -/
theorem get_env_claim_counterexample :
    (get_env [("HOME", "/root")] "HOME" ⟨0, false, []⟩).1 = Except.ok "/root" ∧
    (get_env [("HOME", "/root")] "HOME" ⟨0, false, []⟩).1 =
      (get_env [("HOME", "/root")] "HOME" ⟨1000, true, [1, 2, 3]⟩).1 :=
  ⟨rfl, rfl⟩

/-- C5 as amended: `get_env` receives the name already decoded as a host
string (no offset/length arguments, no validation against the instance's
linear memory), leaves the instance unchanged, looks the name up in the
host process environment, returns the variable's value when present, and
signals a missing variable with `VarError::NotPresent` — a not-found signal
distinct from an empty-string value. -/
theorem get_env_amended (hostEnv : List (String × String)) (name : String)
    (inst : Instance) :
    (get_env hostEnv name inst).1 = env_var hostEnv name ∧
    (get_env hostEnv name inst).2 = inst ∧
    (hostEnv.lookup name = none →
      (get_env hostEnv name inst).1 = Except.error VarError.notPresent) ∧
    (∀ v, hostEnv.lookup name = some v → (get_env hostEnv name inst).1 = Except.ok v) ∧
    Except.error VarError.notPresent ≠ (Except.ok "" : Except VarError String) := by
  refine ⟨rfl, rfl, ?_, ?_, ?_⟩
  · intro h
    simp [get_env, env_var, h]
  · intro v h
    simp [get_env, env_var, h]
  · exact fun h => Except.noConfusion h

/-- Witness for C5's amended claim: a missing name yields the not-found
signal, a present name yields its value. -/
theorem get_env_amended_witness :
    (get_env [("A", "x")] "B" ⟨0, false, []⟩).1 = Except.error VarError.notPresent ∧
    (get_env [("A", "x")] "A" ⟨0, false, []⟩).1 = Except.ok "x" :=
  ⟨(get_env_amended [("A", "x")] "B" ⟨0, false, []⟩).2.2.1 rfl,
   (get_env_amended [("A", "x")] "A" ⟨0, false, []⟩).2.2.2.1 "x" rfl⟩

/-- C6: for the bridge operations with guest-supplied offset/length
arguments, validation runs strictly before the host effect: when validation
of the path range (for `open`) or of the destination buffer range (for
`read`) fails, the operation returns the guest-observable error value `-1`,
performs no host effect (empty effect trace) and leaves the instance
unchanged. `get_env` as embedded from the source and `close` take no
guest-supplied offset/length, so no validation failure can arise for them;
`get_env` still leaves the instance unchanged. -/
theorem bridge_validation_before_effect
    (h : Host) (inst : Instance) (pathOff pathLen : Nat) (flags : Int)
    (fd : Int) (bufOff bufLen : Nat)
    (hostEnv : List (String × String)) (name : String)
    (hOpen : validate 0 inst.memory.length pathOff pathLen = Except.error MemError.outOfBounds)
    (hRead : validate 0 inst.memory.length bufOff bufLen = Except.error MemError.outOfBounds) :
    bridge_open h inst pathOff pathLen flags = (-1, [], inst) ∧
    bridge_read h inst fd bufOff bufLen = (-1, [], inst) ∧
    (get_env hostEnv name inst).2 = inst := by
  refine ⟨?_, ?_, rfl⟩
  · unfold bridge_open
    rw [hOpen]
  · unfold bridge_read
    rw [hRead]

/-- Host model used by the C6 witness: `open` yields descriptor 3, `read`
yields zero bytes, `close` succeeds. -/
def demoHost : Host :=
  ⟨fun _ _ _ => 3, fun _ n => List.replicate n 0, fun _ => 0⟩

/-- Witness for C6: on a two-byte memory, the range of offset 5 and length
5 fails validation, so `open` and `read` return `-1` with no host effect
and an unchanged instance. -/
theorem bridge_validation_before_effect_witness :
    bridge_open demoHost ⟨10, false, [0, 0]⟩ 5 5 0 = (-1, [], ⟨10, false, [0, 0]⟩) ∧
    bridge_read demoHost ⟨10, false, [0, 0]⟩ 0 5 5 = (-1, [], ⟨10, false, [0, 0]⟩) ∧
    (get_env [] "PATH" ⟨10, false, [0, 0]⟩).2 = ⟨10, false, [0, 0]⟩ :=
  bridge_validation_before_effect demoHost ⟨10, false, [0, 0]⟩ 5 5 0 0 5 5 [] "PATH"
    rfl rfl

/-- C7: the memory address validator fails with `OutOfBounds` whenever
`offset + length` exceeds the current linear memory size or the addition
overflows the 32-bit address space (the validator itself performing no read
or write); otherwise it returns the host pointer `memBase + offset`, and
every byte of the validated range lies inside the instance's linear
memory. -/
theorem validate_bounds (memBase memSize offset length : Nat) :
    (memSize < offset + length ∨ 2 ^ 32 ≤ offset + length →
      validate memBase memSize offset length = Except.error MemError.outOfBounds) ∧
    (offset + length ≤ memSize → offset + length < 2 ^ 32 →
      validate memBase memSize offset length = Except.ok (memBase + offset) ∧
      ∀ k, k < length → memBase + offset + k < memBase + memSize) := by
  constructor
  · intro hfail
    unfold validate
    rcases hfail with hsz | hov
    · by_cases hov : 2 ^ 32 ≤ offset + length
      · rw [if_pos hov]
      · rw [if_neg hov, if_pos hsz]
    · rw [if_pos hov]
  · intro hsz hov
    unfold validate
    rw [if_neg (by omega), if_neg (by omega)]
    exact ⟨rfl, fun k hk => by omega⟩

/-- Witness for C7: with memory size 4, the range (2, 3) is rejected and
the range (1, 3) yields the host pointer at base 100 plus offset 1. -/
theorem validate_bounds_witness :
    validate 100 4 2 3 = Except.error MemError.outOfBounds ∧
    validate 100 4 1 3 = Except.ok 101 :=
  ⟨(validate_bounds 100 4 2 3).1 (Or.inl (by decide)),
   ((validate_bounds 100 4 1 3).2 (by decide) (by decide)).1⟩

/-- C8: `get_remaining_points` has no side effect: on every instance state,
faulted ones included, it returns the current ledger value, leaves the
entire instance state unchanged, and a repeated read returns the same
value. -/
theorem get_remaining_points_pure (inst : Instance) :
    (get_remaining_points inst).1 = inst.points ∧
    (get_remaining_points inst).2 = inst ∧
    (get_remaining_points ((get_remaining_points inst).2)).1 =
      (get_remaining_points inst).1 :=
  ⟨rfl, rfl, rfl⟩

/-- C9: the cost function is pure, total and deterministic: it is a total
function of the operator alone (no runtime state in its domain), every cost
is a non-negative integer, evaluating it twice on the same operator yields
the same value, and every operator outside the explicitly assigned three
(`local.get`, `i32.const`, `i32.add`) maps to 0. -/
theorem cost_function_pure (op : Operator) :
    0 ≤ cost_function op ∧
    cost_function op = cost_function op ∧
    ((∀ i, op ≠ Operator.localGet i) → (∀ v, op ≠ Operator.i32Const v) →
      op ≠ Operator.i32Add → cost_function op = 0) := by
  refine ⟨Nat.zero_le _, rfl, ?_⟩
  intro h1 h2 h3
  cases op with
  | localGet i => exact absurd rfl (h1 i)
  | i32Const v => exact absurd rfl (h2 v)
  | i32Add => exact absurd rfl h3
  | i32Store => rfl
  | nop => rfl
  | dropOp => rfl

/-- Witness for C9 at the default operator `nop`, not explicitly assigned a
cost. -/
theorem cost_function_pure_witness :
    0 ≤ cost_function Operator.nop ∧
    cost_function Operator.nop = cost_function Operator.nop ∧
    cost_function Operator.nop = 0 :=
  ⟨(cost_function_pure Operator.nop).1, (cost_function_pure Operator.nop).2.1,
   (cost_function_pure Operator.nop).2.2 (fun _ h => Operator.noConfusion h)
     (fun _ h => Operator.noConfusion h) (fun h => Operator.noConfusion h)⟩

/-- C10: the host `get_env` returns exactly the host environment lookup
`env::var(name)` — `Ok` of the value or `Err` of a `VarError` — neither
reading nor mutating any part of the instance: the instance passes through
unchanged and the result does not depend on the instance argument at all. -/
theorem get_env_frame (hostEnv : List (String × String)) (name : String)
    (inst inst' : Instance) :
    (get_env hostEnv name inst).1 = env_var hostEnv name ∧
    (get_env hostEnv name inst).2 = inst ∧
    (get_env hostEnv name inst).1 = (get_env hostEnv name inst').1 :=
  ⟨rfl, rfl, rfl⟩
